import Mathlib

/-!
Shallow embedding of the OfficeReader-MCP document conversion pipeline
(`officereader_mcp` Python package) and verification of its specification.

The Python sources embedded here are:
  converter.py        (DocxConverter, OfficeConverter)
  excel_converter.py  (ExcelConverter)
  pptx_converter.py   (PowerPointConverter)
  image_optimizer.py  (ImageOptimizer)

Machine conventions: Python `int` is modelled as `Int`/`Nat`; float
arithmetic occurring in the optimizer (resize ratio, colour ratio) is
modelled exactly over `ℚ`; strings are modelled as Lean `String` or
`List Char`.  External collaborators (PIL, openpyxl, python-docx,
hashlib byte IO) are modelled at their call boundary.
-/

namespace OfficeReader

/-! ## Basic Python string helpers -/

/-- ASCII whitespace, as recognised by Python `str.strip` / regex `\s`
on the ASCII range. -/
def isPySpace (c : Char) : Bool :=
  c = ' ' || c = '\t' || c = '\n' || c = '\x0d' || c = '\x0b' || c = '\x0c'

/-- Python `str.lstrip()` on a character list. -/
def lstripL (l : List Char) : List Char := l.dropWhile isPySpace

/-- Python `str.rstrip()` on a character list. -/
def rstripL (l : List Char) : List Char := (l.reverse.dropWhile isPySpace).reverse

/-- Python `str.strip()` on a character list. -/
def stripL (l : List Char) : List Char := rstripL (lstripL l)

/-- Python `str.strip()` on a `String`. -/
def pyStrip (s : String) : String := String.mk (stripL s.data)

/-- Split a character list at newline characters (Python `str.split("\n")`). -/
def splitNlL : List Char → List (List Char)
  | [] => [[]]
  | c :: rest =>
    let r := splitNlL rest
    if c = '\n' then [] :: r
    else match r with
      | [] => [[c]]
      | h :: t => (c :: h) :: t

/-- Join character-list lines with newlines (Python `"\n".join(...)`). -/
def joinNlL : List (List Char) → List Char
  | [] => []
  | [l] => l
  | l :: rest => l ++ '\n' :: joinNlL rest

/-- Decidable check that `pat` occurs as a contiguous substring of `l`. -/
def containsSub (pat l : List Char) : Bool :=
  (List.range (l.length + 1)).any (fun i => (l.drop i).take pat.length = pat)

/-! ## Inline run formatting (converter.py `_process_paragraph`, lines 312-327)

```python
if run.bold:        text = f"**{text}**"
if run.italic:      text = f"*{text}*"
if run.underline:   text = f"<u>{text}</u>"
if run.font.strike: text = f"~~{text}~~"
```
-/

/-- One docx inline run: its text and the four style flags. -/
structure InlineRun where
  text : String
  bold : Bool
  italic : Bool
  underline : Bool
  strike : Bool
deriving DecidableEq, Repr

/-- The run-formatting steps of `_process_paragraph`: each flag, tested in
source order bold, italic, underline, strike, wraps the accumulated text. -/
def formatRun (r : InlineRun) : String :=
  let t0 := r.text
  let t1 := if r.bold then "**" ++ t0 ++ "**" else t0
  let t2 := if r.italic then "*" ++ t1 ++ "*" else t1
  let t3 := if r.underline then "<u>" ++ t2 ++ "</u>" else t2
  if r.strike then "~~" ++ t3 ++ "~~" else t3

/-! ## Heading detection (converter.py `_process_paragraph`, lines 300-308, 373-375)

```python
style_name = para.style.name if para.style else ""
heading_level = 0
if style_name.startswith("Heading"):
    try:
        heading_level = int(style_name.replace("Heading", "").strip())
    except ValueError:
        heading_level = 0
...
if heading_level > 0:
    full_text = f"{'#' * heading_level} {full_text}"
```
-/

/-- Python `str.replace("Heading", "")`: remove every (non-overlapping,
left-to-right) occurrence of the literal `Heading`. -/
def dropHeadingOcc : List Char → List Char
  | 'H' :: 'e' :: 'a' :: 'd' :: 'i' :: 'n' :: 'g' :: rest => dropHeadingOcc rest
  | c :: rest => c :: dropHeadingOcc rest
  | [] => []

/-- Digit-run accumulator for `pyInt`; a single underscore is allowed
between two digits (Python integer-literal grammar). -/
def digitsTail (acc : Nat) : List Char → Option Nat
  | [] => some acc
  | '_' :: c :: rest =>
    if c.isDigit then digitsTail (acc * 10 + (c.toNat - 48)) rest else none
  | c :: rest =>
    if c.isDigit then digitsTail (acc * 10 + (c.toNat - 48)) rest else none

/-- Value of an unsigned decimal digit run (with optional single
underscores between digits), `none` if malformed. -/
def digitsVal : List Char → Option Nat
  | [] => none
  | c :: rest => if c.isDigit then digitsTail (c.toNat - 48) rest else none

/-- Python `int(s)`: strips surrounding whitespace, accepts an optional
sign followed by at least one decimal digit; anything else raises
`ValueError`, modelled as `none`. -/
def pyInt (l : List Char) : Option Int :=
  match stripL l with
  | '-' :: rest => (digitsVal rest).map (fun v => -(v : Int))
  | '+' :: rest => (digitsVal rest).map (fun v => (v : Int))
  | body => (digitsVal body).map (fun v => (v : Int))

/-- Python `str.startswith(pre)`. -/
def pyStartswith (s pre : String) : Bool :=
  s.data.take pre.data.length = pre.data

/-- The heading level `_process_paragraph` computes from a paragraph style
name. -/
def headingLevel (styleName : String) : Int :=
  if pyStartswith styleName "Heading" then
    match pyInt (dropHeadingOcc styleName.data) with
    | some n => n
    | none => 0
  else 0

/-- The heading prefixing step of `_process_paragraph`: `heading_level > 0`
prepends that many `#` characters and a space, otherwise the paragraph text
is left as a plain paragraph. -/
def applyHeading (level : Int) (text : String) : String :=
  if level > 0 then String.mk (List.replicate level.toNat '#') ++ " " ++ text
  else text

/-! ## Excel conversion (excel_converter.py)

`convert_file` (lines 72-135) keeps only rows with a truthy stripped cell,
builds a markdown table per sheet, and joins the parts with `"\n"` with no
further normalisation.  `_create_markdown_table` (lines 137-177) pads every
row with `None` up to the maximum column count and appends a `---` separator
row after row 0.  A cell is modelled as `Option String`: `none` is Python
`None`, `some s` carries `str(cell)`. -/

/-- Python `sep.join(parts)`. -/
def pyJoin (sep : String) : List String → String
  | [] => ""
  | [x] => x
  | x :: rest => x ++ sep ++ pyJoin sep rest

/-- Python `str(cell) if cell is not None else ""`. -/
def cellStr : Option String → String
  | none => ""
  | some s => s

/-- Python `str.replace("|", "\\|")` on a character list. -/
def replacePipe : List Char → List Char
  | [] => []
  | '|' :: r => '\\' :: '|' :: replacePipe r
  | c :: r => c :: replacePipe r

/-- Python `str.replace("\n", " ")` on a character list. -/
def replaceNlSpace : List Char → List Char
  | [] => []
  | '\n' :: r => ' ' :: replaceNlSpace r
  | c :: r => c :: replaceNlSpace r

/-- Cell escaping in `_create_markdown_table`:
`cell_text.replace("|", "\\|").replace("\n", " ")`. -/
def escapeCell (s : String) : String :=
  String.mk (replaceNlSpace (replacePipe s.data))

/-- `max(len(row) for row in data)` (0 on an empty list; the source only
evaluates it for non-empty `data`). -/
def maxCols (data : List (List (Option String))) : Nat :=
  data.foldr (fun r m => max r.length m) 0

/-- `list(row) + [None] * (max_cols - len(row))`. -/
def padRow (n : Nat) (row : List (Option String)) : List (Option String) :=
  row ++ List.replicate (n - row.length) none

/-- `"| " + " | ".join(cells) + " |"`. -/
def renderCells (cells : List String) : String :=
  "| " ++ pyJoin " | " cells ++ " |"

/-- The escaped cell texts of one normalized row. -/
def rowCells (row : List (Option String)) : List String :=
  row.map (fun c => escapeCell (cellStr c))

/-- The `md_rows` list built by `_create_markdown_table`: every normalized
row rendered, with a `---` separator row (one `---` per cell of row 0)
inserted after the first row. -/
def mdRowsOf (data : List (List (Option String))) : List String :=
  match data.map (padRow (maxCols data)) with
  | [] => []
  | r0 :: rest =>
    renderCells (rowCells r0)
      :: renderCells (List.replicate (rowCells r0).length "---")
      :: rest.map (fun r => renderCells (rowCells r))

/-- `_create_markdown_table`: `"\n".join(md_rows) + "\n"` (empty input
returns `""`). -/
def createMarkdownTable (data : List (List (Option String))) : String :=
  if data = [] then "" else pyJoin "\n" (mdRowsOf data) ++ "\n"

/-- The row-keeping predicate of `convert_file` line 82:
`cell is not None and str(cell).strip()`. -/
def cellNonBlank : Option String → Bool
  | none => false
  | some s => !(stripL s.data).isEmpty

/-- Row filtering of `convert_file` lines 80-83: a row is kept iff some cell
is non-`None` with a non-empty stripped string form. -/
def keptRows (rows : List (List (Option String))) : List (List (Option String)) :=
  rows.filter (fun r => r.any cellNonBlank)

/-- The `markdown_parts` contributed by one worksheet (name, cell rows) in
`convert_file` lines 72-124, for a sheet with no embedded images. -/
def sheetParts (name : String) (rows : List (List (Option String))) : List String :=
  let data := keptRows rows
  ["# Sheet: " ++ name ++ "\n"]
    ++ (if data.isEmpty then ["*Empty sheet*\n"] else [createMarkdownTable data])
    ++ ["\n---\n"]

/-- The markdown string returned by the Excel `convert_file`
(line 129, `"\n".join(markdown_parts)`) for a workbook whose sheets carry
no embedded images; no cleanup pass is applied on this path. -/
def excelMarkdown (sheets : List (String × List (List (Option String)))) : String :=
  pyJoin "\n" (sheets.flatMap (fun p => sheetParts p.1 p.2))

/-! ## Markdown cleanup (converter.py `_clean_markdown`, lines 418-433)

```python
markdown = re.sub(r"\n{3,}", "\n\n", markdown)
markdown = re.sub(r"(#{1,6})\s*\n+", r"\1 ", markdown)
markdown = re.sub(r"\n\s*-\s*\n", "\n", markdown)
lines = [line.rstrip() for line in markdown.split("\n")]
markdown = "\n".join(lines)
return markdown.strip()
```

`re.sub` is modelled by a left-to-right scanner over the characters: at
each position the pattern-specific matcher either yields the replacement
plus total match length (leftmost match, greedy with backtracking, exactly
as Python `re` resolves each of these three patterns), or the scanner
advances one character.  Matches do not overlap; scanning resumes after a
match. -/

/-- Generic non-overlapping leftmost substitution scanner (structural
recursion on a fuel bound; one character or one whole match is consumed
per step, so fuel `l.length` always suffices). -/
def scanSubF (f : List Char → Option (List Char × Nat)) : Nat → List Char → List Char
  | 0, l => l
  | _ + 1, [] => []
  | fuel + 1, c :: rest =>
    match f (c :: rest) with
    | some (repl, len) =>
      if 1 ≤ len then repl ++ scanSubF f fuel (List.drop len (c :: rest))
      else c :: scanSubF f fuel rest
    | none => c :: scanSubF f fuel rest

/-- Non-overlapping leftmost substitution over a whole character list. -/
def scanSub (f : List Char → Option (List Char × Nat)) (l : List Char) : List Char :=
  scanSubF f l.length l

/-- Index of the last newline of a character list, if any. -/
def lastNlIdx (ws : List Char) : Option Nat :=
  match ws.reverse.findIdx? (fun c => c = '\n') with
  | none => none
  | some j => some (ws.length - 1 - j)

/-- Matcher for `\n{3,}` (replacement `"\n\n"`): a maximal run of at least
three newlines. -/
def mNl3 (l : List Char) : Option (List Char × Nat) :=
  let n := (l.takeWhile (fun c => c = '\n')).length
  if 3 ≤ n then some (['\n', '\n'], n) else none

/-- Matcher for `(#{1,6})\s*\n+` (replacement `\1 ` ): up to six `#`
characters (no match if seven or more follow, since backtracked shorter
alternatives are then blocked by the next `#`), then greedy `\s*` which
backtracks to the last newline of the following whitespace run, then `\n+`
which takes exactly that final newline. -/
def mHeadingSpace (l : List Char) : Option (List Char × Nat) :=
  let m := (l.takeWhile (fun c => c = '#')).length
  if m = 0 ∨ 6 < m then none
  else
    let ws := (l.drop m).takeWhile isPySpace
    match lastNlIdx ws with
    | none => none
    | some t => some (l.take m ++ [' '], m + t + 1)

/-- Matcher for `\n\s*-\s*\n` (replacement `"\n"`): a newline, a maximal
whitespace run, a literal dash (a backtracked shorter `\s*` would face
whitespace, never `-`), a second whitespace run whose last newline ends
the match. -/
def mListBlank (l : List Char) : Option (List Char × Nat) :=
  match l with
  | '\n' :: rest =>
    let w1 := rest.takeWhile isPySpace
    match rest.drop w1.length with
    | '-' :: rest2 =>
      let w2 := rest2.takeWhile isPySpace
      match lastNlIdx w2 with
      | none => none
      | some t => some (['\n'], 1 + w1.length + 1 + t + 1)
    | _ => none
  | _ => none

/-- `_clean_markdown`: the three regex substitutions, per-line
`rstrip`, and a final whole-document `strip`. -/
def cleanMarkdown (s : String) : String :=
  let l1 := scanSub mNl3 s.data
  let l2 := scanSub mHeadingSpace l1
  let l3 := scanSub mListBlank l2
  let l4 := joinNlL ((splitNlL l3).map rstripL)
  String.mk (stripL l4)

/-! ## Image optimizer (image_optimizer.py)

A decoded PIL image is modelled by its mode string, pixel dimensions, and
the list of its pixel colour values (one abstract colour code per pixel).
The PIL collaborator's per-mode colour conversion used by
`Image.convert("RGB")` is a parameter `toRGB : String → Nat → Nat`
(source mode, colour ↦ RGB colour); the resampling filter of
`Image.resize` is a parameter `resample` producing the resized image. -/

structure PImage where
  mode : String
  width : Nat
  height : Nat
  pixels : List Nat
deriving DecidableEq, Repr

/-- PIL `image.convert("RGB")`: pixel-wise colour conversion to RGB mode,
preserving dimensions. -/
def convertRGB (toRGB : String → Nat → Nat) (img : PImage) : PImage :=
  ⟨"RGB", img.width, img.height, img.pixels.map (toRGB img.mode)⟩

/-- PIL `image.getcolors(maxcolors)`: `None` when the number of distinct
colours exceeds `maxcolors`, otherwise the list of distinct colours (PIL
pairs each with its count; only the length is consumed by the source). -/
def getcolors (maxcolors : Nat) (img : PImage) : Option (List Nat) :=
  let d := img.pixels.dedup
  if maxcolors < d.length then none else some d

/-- `_is_photo_like` (lines 123-148): convert to RGB if needed, compute the
sample budget `min(100, width) * min(100, height)`, classify as photo when
more than 1000 distinct colours, otherwise when
`len(colors) / sample_size > 0.3` (ratio `0` when the budget is zero). -/
def isPhotoLike (toRGB : String → Nat → Nat) (img : PImage) : Bool :=
  let t := if img.mode ≠ "RGB" then convertRGB toRGB img else img
  let sampleSize := min 100 t.width * min 100 t.height
  match getcolors 1000 t with
  | none => true
  | some colors =>
    let uniqueRatioQ : ℚ :=
      if 0 < sampleSize then (colors.length : ℚ) / sampleSize else 0
    decide (uniqueRatioQ > 3 / 10)

/-- The new dimensions computed by `_resize_if_needed` lines 89-91:
`ratio = min(max_width / width, max_height / height)`,
`new_width = int(width * ratio)`, `new_height = int(height * ratio)`
(Python float arithmetic modelled exactly over `ℚ`; `int` truncation of a
non-negative value is the floor). -/
def ratioQ (maxw maxh w h : Nat) : ℚ :=
  min ((maxw : ℚ) / w) ((maxh : ℚ) / h)

/-- `new_width = int(width * ratio)`, `new_height = int(height * ratio)`. -/
def resizeDims (maxw maxh w h : Nat) : Nat × Nat :=
  (⌊(w : ℚ) * ratioQ maxw maxh w h⌋₊, ⌊(h : ℚ) * ratioQ maxw maxh w h⌋₊)

/-- `_resize_if_needed` (lines 81-94): identity when both dimensions are
within bounds, else a LANCZOS resample (collaborator parameter) to the
scaled-down dimensions. -/
def resizeIfNeeded (resample : PImage → Nat → Nat → PImage) (maxw maxh : Nat)
    (img : PImage) : PImage :=
  if img.width ≤ maxw ∧ img.height ≤ maxh then img
  else
    let d := resizeDims maxw maxh img.width img.height
    resample img d.1 d.2

/-- `_choose_format` (lines 96-121). -/
def chooseFormat (preferWebp : Bool) (toRGB : String → Nat → Nat)
    (img : PImage) (hasTransparency : Bool) : String :=
  let isPhoto := isPhotoLike toRGB img
  if hasTransparency then (if preferWebp then "webp" else "png")
  else if isPhoto then (if preferWebp then "webp" else "jpg")
  else if preferWebp then "webp" else "png"

/-- Python `str.lower()` (ASCII). -/
def pyLower (s : String) : String := String.mk (s.data.map Char.toLower)

/-- The output format string of `optimize_image` lines 58-71: transparency
is detected on the original mode, the image is resized, the format is
`force_format.lower()` when `force_format` is truthy (a non-`None`,
non-empty string) and `_choose_format`'s choice on the resized image
otherwise. -/
def chosenFormat (preferWebp : Bool) (toRGB : String → Nat → Nat)
    (resample : PImage → Nat → Nat → PImage) (maxw maxh : Nat)
    (img : PImage) (forceFormat : Option String) : String :=
  let hasTransparency := img.mode = "RGBA" || img.mode = "LA" || img.mode = "P"
  let img2 := resizeIfNeeded resample maxw maxh img
  match forceFormat with
  | some f =>
    if f = "" then chooseFormat preferWebp toRGB img2 hasTransparency
    else pyLower f
  | none => chooseFormat preferWebp toRGB img2 hasTransparency

/-- The format dispatch of lines 74-79: the extension of the save helper
the chosen output format routes to. -/
def saveExt (outputFormat : String) : String :=
  if outputFormat = "webp" then ".webp"
  else if outputFormat = "png" then ".png"
  else ".jpg"

/-- The extension returned by `optimize_image` (lines 41-79):
`_save_as_webp` returns `".webp"` (line 178), `_save_as_png` `".png"`
(line 192), `_save_as_jpeg` `".jpg"` (line 220); every format other than
`"webp"` and `"png"` falls into the final `else` branch of lines 74-79. -/
def optimizeExt (preferWebp : Bool) (toRGB : String → Nat → Nat)
    (resample : PImage → Nat → Nat → PImage) (maxw maxh : Nat)
    (img : PImage) (forceFormat : Option String) : String :=
  saveExt (chosenFormat preferWebp toRGB resample maxw maxh img forceFormat)

/-! ## Embedded-image extraction loops -/

/-- Base64 alphabet character (index taken modulo 64). -/
def b64Char (n : Nat) : Char :=
  ("ABCDEFGHIJKLMNOPQRSTUVWXYZabcdefghijklmnopqrstuvwxyz0123456789+/").data.get
    ⟨n % 64, Nat.mod_lt n (by decide)⟩

/-- Standard base64 encoding of a byte list (Python `base64.b64encode`). -/
def b64Encode : List Nat → List Char
  | [] => []
  | [a] => [b64Char (a / 4), b64Char (a % 4 * 16), '=', '=']
  | [a, b] => [b64Char (a / 4), b64Char (a % 4 * 16 + b / 16), b64Char (b % 16 * 4), '=']
  | a :: b :: c :: rest =>
    b64Char (a / 4) :: b64Char (a % 4 * 16 + b / 16)
      :: b64Char (b % 16 * 4 + c / 64) :: b64Char (c % 64) :: b64Encode rest

/-- Python `base64.b64encode(data).decode("utf-8")`. -/
def base64Str (bytes : List Nat) : String := String.mk (b64Encode bytes)

/-- Python `f"{n:03d}"` for a non-negative `n`. -/
def pad3 (n : Nat) : String :=
  let s := toString n
  String.mk (List.replicate (3 - s.length) '0') ++ s

/-- One `<a:blip>` drawing reference found in a docx run, as seen by
`_process_paragraph` lines 331-366:
* `noEmbed` — the blip has no `r:embed` attribute (`if embed_id:` fails);
* `unresolved` — `doc.part.related_parts.get(embed_id)` returns `None`;
* `failing` — the related part exists but accessing its blob raises
  (an unreadable embedded image), caught by `except Exception: pass`
  after the counter was already incremented;
* `ok ct blob` — a readable image part with declared content type `ct`
  and bytes `blob`. -/
inductive DrawingRef where
  | noEmbed : DrawingRef
  | unresolved : DrawingRef
  | failing : DrawingRef
  | ok : String → List Nat → DrawingRef
deriving DecidableEq, Repr

/-- The content-type extension map of `_process_paragraph` lines 344-350
(default `".png"`). -/
def docxExtMap (ct : String) : String :=
  if ct = "image/png" then ".png"
  else if ct = "image/jpeg" then ".jpg"
  else if ct = "image/gif" then ".gif"
  else if ct = "image/bmp" then ".bmp"
  else ".png"

/-- State threaded through the image loop: appended text parts, recorded
image paths (relative to the conversion's `images` directory), and the
running image counter. -/
structure ImgState where
  textParts : List String
  images : List String
  counter : Nat
deriving DecidableEq, Repr

/-- One iteration of the docx image loop (`_process_paragraph` lines
331-366).  On success the image file name is `image_{counter:03d}{ext}`;
with `image_format` in `["file", "both"]` the written path is recorded;
the markdown reference is a data URI exactly when `image_format ==
"base64"` and a file reference otherwise.  A failing blob leaves no trace
beyond the counter increment (`except Exception: pass`). -/
def docxImageStep (imageFormat : String) (st : ImgState) (ref : DrawingRef) : ImgState :=
  match ref with
  | .noEmbed => st
  | .unresolved => st
  | .failing => { st with counter := st.counter + 1 }
  | .ok ct blob =>
    let counter := st.counter + 1
    let imgName := "image_" ++ pad3 counter ++ docxExtMap ct
    let images :=
      if imageFormat = "file" ∨ imageFormat = "both"
      then st.images ++ ["images/" ++ imgName] else st.images
    let textPart :=
      if imageFormat = "base64"
      then "\n![image](data:" ++ ct ++ ";base64," ++ base64Str blob ++ ")\n"
      else "\n![image](images/" ++ imgName ++ ")\n"
    ⟨st.textParts ++ [textPart], images, counter⟩

/-- The docx image-extraction loop over the drawing references of a
paragraph's runs. -/
def docxImages (imageFormat : String) (refs : List DrawingRef) (counter0 : Nat) : ImgState :=
  refs.foldl (docxImageStep imageFormat) ⟨[], [], counter0⟩

/-- A picture shape on a slide as seen by the PowerPoint `convert_file`
image branch (pptx_converter.py lines 104-137): either a decodable image,
or a shape whose extraction raises with message `msg` (caught by the
`except Exception as e` arm after the counter increment). -/
inductive PicShape where
  | ok : PImage → PicShape
  | failing : String → PicShape
deriving DecidableEq, Repr

/-- Python `ext.lstrip(".")`. -/
def pyLstripDot (s : String) : String := String.mk (s.data.dropWhile (fun c => c = '.'))

/-- One iteration of the PowerPoint picture-shape branch (lines 104-137):
on success the image is routed through the optimizer (the encoded bytes
come from the PIL save collaborator `encode`), written and referenced for
`image_format` in `["file", "both"]`, referenced as a data URI for
`"base64"`; on failure the text part
`"\n*[Image extraction failed: {e}]*"` is appended and the loop
continues. -/
def pptxImageStep (preferWebp : Bool) (toRGB : String → Nat → Nat)
    (resample : PImage → Nat → Nat → PImage) (encode : PImage → String → List Nat)
    (maxw maxh slideNum : Nat) (imageFormat : String)
    (st : ImgState) (shape : PicShape) : ImgState :=
  match shape with
  | .failing msg =>
    ⟨st.textParts ++ ["\n*[Image extraction failed: " ++ msg ++ "]*"],
      st.images, st.counter + 1⟩
  | .ok img =>
    let counter := st.counter + 1
    let ext := optimizeExt preferWebp toRGB resample maxw maxh img none
    let imgName := "slide" ++ toString slideNum ++ "_image_" ++ pad3 counter
    let imgFilename := imgName ++ ext
    let st1 : ImgState :=
      if imageFormat = "file" ∨ imageFormat = "both"
      then ⟨st.textParts ++ ["\n![" ++ imgName ++ "](images/" ++ imgFilename ++ ")"],
            st.images ++ ["images/" ++ imgFilename], counter⟩
      else ⟨st.textParts, st.images, counter⟩
    if imageFormat = "base64"
    then ⟨st1.textParts ++ ["\n![" ++ imgName ++ "](data:image/" ++ pyLstripDot ext
            ++ ";base64," ++ base64Str (encode img ext) ++ ")"],
          st1.images, counter⟩
    else st1

/-- The PowerPoint picture loop over the picture shapes of one slide. -/
def pptxImages (preferWebp : Bool) (toRGB : String → Nat → Nat)
    (resample : PImage → Nat → Nat → PImage) (encode : PImage → String → List Nat)
    (maxw maxh slideNum : Nat) (imageFormat : String)
    (shapes : List PicShape) (counter0 : Nat) : ImgState :=
  shapes.foldl (pptxImageStep preferWebp toRGB resample encode maxw maxh slideNum imageFormat)
    ⟨[], [], counter0⟩

/-- Classifier for successful docx drawing references. -/
def isOkRef : DrawingRef → Bool
  | .ok _ _ => true
  | _ => false

/-- Classifier for successfully decoded picture shapes. -/
def isOkShape : PicShape → Bool
  | .ok _ => true
  | _ => false

/-- Classifier for failing picture shapes. -/
def isFailShape : PicShape → Bool
  | .failing _ => true
  | _ => false

/-! ## Fingerprint (converter.py `_get_file_hash`, lines 661-667, and
output naming, lines 608-611)

`_get_file_hash` feeds the full source byte stream through `hashlib.md5`
and returns its 32-character lowercase hex digest; the output identifier
is `f"{file_path.stem}_{file_hash[:8]}"`.  MD5 (RFC 1321) is embedded
below over `Nat` byte lists, with 32-bit words reduced `% 2^32`. -/

/-- The 64 MD5 round constants `K[i] = floor(2^32 * |sin(i+1)|)`. -/
def md5K : List Nat :=
  [0xd76aa478, 0xe8c7b756, 0x242070db, 0xc1bdceee,
   0xf57c0faf, 0x4787c62a, 0xa8304613, 0xfd469501,
   0x698098d8, 0x8b44f7af, 0xffff5bb1, 0x895cd7be,
   0x6b901122, 0xfd987193, 0xa679438e, 0x49b40821,
   0xf61e2562, 0xc040b340, 0x265e5a51, 0xe9b6c7aa,
   0xd62f105d, 0x02441453, 0xd8a1e681, 0xe7d3fbc8,
   0x21e1cde6, 0xc33707d6, 0xf4d50d87, 0x455a14ed,
   0xa9e3e905, 0xfcefa3f8, 0x676f02d9, 0x8d2a4c8a,
   0xfffa3942, 0x8771f681, 0x6d9d6122, 0xfde5380c,
   0xa4beea44, 0x4bdecfa9, 0xf6bb4b60, 0xbebfbc70,
   0x289b7ec6, 0xeaa127fa, 0xd4ef3085, 0x04881d05,
   0xd9d4d039, 0xe6db99e5, 0x1fa27cf8, 0xc4ac5665,
   0xf4292244, 0x432aff97, 0xab9423a7, 0xfc93a039,
   0x655b59c3, 0x8f0ccc92, 0xffeff47d, 0x85845dd1,
   0x6fa87e4f, 0xfe2ce6e0, 0xa3014314, 0x4e0811a1,
   0xf7537e82, 0xbd3af235, 0x2ad7d2bb, 0xeb86d391]

/-- The MD5 per-round left-rotation amounts. -/
def md5S : List Nat :=
  [7, 12, 17, 22, 7, 12, 17, 22, 7, 12, 17, 22, 7, 12, 17, 22,
   5, 9, 14, 20, 5, 9, 14, 20, 5, 9, 14, 20, 5, 9, 14, 20,
   4, 11, 16, 23, 4, 11, 16, 23, 4, 11, 16, 23, 4, 11, 16, 23,
   6, 10, 15, 21, 6, 10, 15, 21, 6, 10, 15, 21, 6, 10, 15, 21]

/-- 32-bit left rotation over `Nat`. -/
def rotl32 (x s : Nat) : Nat :=
  ((x <<< s) ||| (x >>> (32 - s))) % 4294967296

/-- The MD5 round function and message-word index for round `i`. -/
def md5F (i B C D : Nat) : Nat × Nat :=
  if i < 16 then ((B &&& C) ||| ((4294967295 ^^^ B) &&& D), i)
  else if i < 32 then ((D &&& B) ||| ((4294967295 ^^^ D) &&& C), (5 * i + 1) % 16)
  else if i < 48 then (B ^^^ C ^^^ D, (3 * i + 5) % 16)
  else (C ^^^ (B ||| (4294967295 ^^^ D)), (7 * i) % 16)

/-- One MD5 round over state `(A, B, C, D)` with message words `M`. -/
def md5Round (M : List Nat) (st : Nat × Nat × Nat × Nat) (i : Nat) :
    Nat × Nat × Nat × Nat :=
  let A := st.1; let B := st.2.1; let C := st.2.2.1; let D := st.2.2.2
  let fg := md5F i B C D
  let f2 := (fg.1 + A + md5K.getD i 0 + M.getD fg.2 0) % 4294967296
  (D, (B + rotl32 f2 (md5S.getD i 0)) % 4294967296, B, C)

/-- MD5 compression of one 16-word block into the running state. -/
def md5Compress (st : Nat × Nat × Nat × Nat) (M : List Nat) :
    Nat × Nat × Nat × Nat :=
  let r := (List.range 64).foldl (md5Round M) st
  ((st.1 + r.1) % 4294967296, (st.2.1 + r.2.1) % 4294967296,
   (st.2.2.1 + r.2.2.1) % 4294967296, (st.2.2.2 + r.2.2.2) % 4294967296)

/-- Little-endian 32-bit words of a byte list (groups of four). -/
def toWordsLE : List Nat → List Nat
  | b0 :: b1 :: b2 :: b3 :: rest =>
    (b0 + 256 * (b1 + 256 * (b2 + 256 * b3))) :: toWordsLE rest
  | _ => []

/-- Process a padded byte stream in 64-byte chunks. -/
def md5Chunks (st : Nat × Nat × Nat × Nat) : List Nat → Nat × Nat × Nat × Nat
  | [] => st
  | c :: rest =>
    md5Chunks (md5Compress st (toWordsLE ((c :: rest).take 64))) ((c :: rest).drop 64)
termination_by l => l.length
decreasing_by simp only [List.length_drop, List.length_cons]; omega

/-- Little-endian 8-byte encoding of the 64-bit message bit length. -/
def leBytes8 (v : Nat) : List Nat :=
  [v % 256, v / 2 ^ 8 % 256, v / 2 ^ 16 % 256, v / 2 ^ 24 % 256,
   v / 2 ^ 32 % 256, v / 2 ^ 40 % 256, v / 2 ^ 48 % 256, v / 2 ^ 56 % 256]

/-- MD5 padding: a `0x80` byte, zeros to 56 mod 64, then the bit length. -/
def md5Pad (msg : List Nat) : List Nat :=
  let n := msg.length
  let padLen := (120 - (n + 1) % 64) % 64
  msg ++ 0x80 :: (List.replicate padLen 0 ++ leBytes8 (n * 8 % 2 ^ 64))

/-- Little-endian bytes of one 32-bit state word. -/
def bytesOfWordLE (w : Nat) : List Nat :=
  [w % 256, w / 256 % 256, w / 65536 % 256, w / 16777216 % 256]

/-- Lowercase hex digit character (index taken modulo 16). -/
def hexDigitChar (n : Nat) : Char :=
  ("0123456789abcdef").data.get ⟨n % 16, Nat.mod_lt n (by decide)⟩

/-- Two lowercase hex characters of one byte. -/
def byteHex (b : Nat) : List Char := [hexDigitChar (b / 16), hexDigitChar b]

/-- The 16 digest bytes of a final MD5 state. -/
def md5DigestBytes (st : Nat × Nat × Nat × Nat) : List Nat :=
  bytesOfWordLE st.1 ++ bytesOfWordLE st.2.1 ++ bytesOfWordLE st.2.2.1
    ++ bytesOfWordLE st.2.2.2

/-- `hashlib.md5(data).hexdigest()`: the 32-character lowercase hex digest
of the MD5 hash of the byte stream. -/
def md5hex (msg : List Nat) : String :=
  let st := md5Chunks (0x67452301, 0xefcdab89, 0x98badcfe, 0x10325476) (md5Pad msg)
  String.mk ((md5DigestBytes st).flatMap byteHex)

/-- The output identifier of `OfficeConverter.convert_file` lines 608-611
(and identically `DocxConverter.convert_file` lines 104-107):
`f"{file_path.stem}_{file_hash[:8]}"` where `file_hash` is
`_get_file_hash` of the full source byte stream. -/
def outputName (stem : String) (srcBytes : List Nat) : String :=
  stem ++ "_" ++ String.mk ((md5hex srcBytes).data.take 8)

/-! ## Whitespace-shape predicates (for the normalization claims) -/

/-- A line of `l` (in the `\n`-separated sense) ends in trailing
whitespace: some non-newline whitespace character stands immediately
before a newline or at the end of the string. -/
def lineWS : List Char → Bool
  | [] => false
  | [c] => isPySpace c && !(c == '\n')
  | a :: b :: rest => (isPySpace a && !(a == '\n') && (b == '\n')) || lineWS (b :: rest)

/-- The list is empty or its last character is not whitespace. -/
def endOKb (l : List Char) : Bool :=
  match l.getLast? with
  | none => true
  | some c => !isPySpace c

/-- The list is empty or its first character is not whitespace. -/
def startOKb (l : List Char) : Bool :=
  match l.head? with
  | none => true
  | some c => !isPySpace c

/-! # Shared helper lemmas -/

theorem maxCols_cons (r : List (Option String)) (data : List (List (Option String))) :
    maxCols (r :: data) = max r.length (maxCols data) := rfl

theorem length_le_maxCols {r : List (Option String)}
    {data : List (List (Option String))} (h : r ∈ data) :
    r.length ≤ maxCols data := by
  induction data with
  | nil => cases h
  | cons a t ih =>
    rcases List.mem_cons.mp h with h1 | h1
    · subst h1; exact le_max_left _ _
    · exact le_trans (ih h1) (le_max_right _ _)

theorem padRow_length {n : Nat} {r : List (Option String)} (h : r.length ≤ n) :
    (padRow n r).length = n := by
  simp only [padRow, List.length_append, List.length_replicate]
  omega

theorem rowCells_length (r : List (Option String)) :
    (rowCells r).length = r.length := by
  simp [rowCells]

theorem chooseFormat_preferWebp (toRGB : String → Nat → Nat) (img : PImage)
    (hT : Bool) : chooseFormat true toRGB img hT = "webp" := by
  unfold chooseFormat
  by_cases h : isPhotoLike toRGB img = true <;> by_cases h2 : hT = true <;>
    simp [h, h2]

theorem dedup_replicate_pos {a : Nat} {n : Nat} (h : 1 ≤ n) :
    (List.replicate n a).dedup = [a] := by
  induction n with
  | zero => omega
  | succ m ih =>
    rcases Nat.eq_or_lt_of_le h with h1 | h1
    · simp [← h1]
    · rw [List.replicate_succ, List.dedup_cons_of_mem (by simp; omega)]
      exact ih (by omega)

theorem one_div_gt_iff (s : Nat) (hs : 0 < s) :
    ((1 : ℚ) / (s : ℚ) > 3 / 10) ↔ s ≤ 3 := by
  rw [gt_iff_lt, div_lt_div_iff₀ (by norm_num) (by exact_mod_cast hs)]
  constructor
  · intro hx
    by_contra hc
    push_neg at hc
    have h4 : (4 : ℚ) ≤ (s : ℚ) := by exact_mod_cast hc
    linarith
  · intro hx
    have h3 : ((s : ℚ)) ≤ 3 := by exact_mod_cast hx
    linarith

/-- `_is_photo_like` on a single-colour image: photo-like exactly when the
sample budget `min(100,w) * min(100,h)` is at most 3 (the single distinct
colour then makes `1 / sample_size` exceed `0.3`). -/
theorem isPhotoLike_replicate (toRGB : String → Nat → Nat) (mode : String)
    (w h c : Nat) (hw : 1 ≤ w) (hh : 1 ≤ h) :
    isPhotoLike toRGB ⟨mode, w, h, List.replicate (w * h) c⟩
      = decide (min 100 w * min 100 h ≤ 3) := by
  have hwh : 1 ≤ w * h := Nat.one_le_iff_ne_zero.mpr (by positivity)
  have hs : 0 < min 100 w * min 100 h := by
    have h1 : 1 ≤ min 100 w := le_min (by norm_num) hw
    have h2 : 1 ≤ min 100 h := le_min (by norm_num) hh
    positivity
  by_cases hm : mode = "RGB"
  · subst hm
    simp only [isPhotoLike, ne_eq, not_true_eq_false, if_false, getcolors,
      dedup_replicate_pos hwh, ite_false, reduceIte]
    rw [if_neg (by norm_num)]
    simp only [List.length_cons, List.length_nil, Nat.cast_one]
    rw [if_pos hs, decide_eq_decide]
    exact_mod_cast one_div_gt_iff (min 100 w * min 100 h) hs
  · simp only [isPhotoLike, ne_eq, hm, not_false_eq_true, if_true, ite_true,
      convertRGB, List.map_replicate, getcolors, dedup_replicate_pos hwh, reduceIte]
    rw [if_neg (by norm_num)]
    simp only [List.length_cons, List.length_nil, Nat.cast_one]
    rw [if_pos hs, decide_eq_decide]
    exact_mod_cast one_div_gt_iff (min 100 w * min 100 h) hs

theorem docx_loop_file (refs : List DrawingRef) : ∀ st : ImgState,
    ((List.foldl (docxImageStep "file") st refs).images.length
        = st.images.length + refs.countP isOkRef)
  ∧ ((List.foldl (docxImageStep "file") st refs).textParts.length
        = st.textParts.length + refs.countP isOkRef) := by
  induction refs with
  | nil => intro st; simp
  | cons r rs ih =>
    intro st
    rw [List.foldl_cons, List.countP_cons]
    have h := ih (docxImageStep "file" st r)
    cases r with
    | noEmbed =>
      constructor
      · rw [h.1]; simp [docxImageStep, isOkRef]
      · rw [h.2]; simp [docxImageStep, isOkRef]
    | unresolved =>
      constructor
      · rw [h.1]; simp [docxImageStep, isOkRef]
      · rw [h.2]; simp [docxImageStep, isOkRef]
    | failing =>
      constructor
      · rw [h.1]; simp [docxImageStep, isOkRef]
      · rw [h.2]; simp [docxImageStep, isOkRef]
    | ok ct blob =>
      constructor
      · rw [h.1]; simp [docxImageStep, isOkRef]; omega
      · rw [h.2]; simp [docxImageStep, isOkRef]; omega

theorem pptx_text_mono (pw : Bool) (toRGB : String → Nat → Nat)
    (resample : PImage → Nat → Nat → PImage) (encode : PImage → String → List Nat)
    (maxw maxh sn : Nat) (shapes : List PicShape) : ∀ (st : ImgState) (x : String),
    x ∈ st.textParts →
    x ∈ (List.foldl (pptxImageStep pw toRGB resample encode maxw maxh sn "file") st shapes).textParts := by
  induction shapes with
  | nil => intro st x hx; simpa using hx
  | cons s ss ih =>
    intro st x hx
    rw [List.foldl_cons]
    refine ih _ x ?_
    cases s with
    | failing msg => simp [pptxImageStep]; left; exact hx
    | ok img => simp [pptxImageStep]; left; exact hx

theorem pptx_loop_file (pw : Bool) (toRGB : String → Nat → Nat)
    (resample : PImage → Nat → Nat → PImage) (encode : PImage → String → List Nat)
    (maxw maxh sn : Nat) (shapes : List PicShape) : ∀ st : ImgState,
    ((List.foldl (pptxImageStep pw toRGB resample encode maxw maxh sn "file") st shapes).images.length
        = st.images.length + shapes.countP isOkShape)
  ∧ ((List.foldl (pptxImageStep pw toRGB resample encode maxw maxh sn "file") st shapes).textParts.length
        = st.textParts.length + shapes.countP isOkShape + shapes.countP isFailShape)
  ∧ (∀ msg : String, PicShape.failing msg ∈ shapes →
      ("\n*[Image extraction failed: " ++ msg ++ "]*")
        ∈ (List.foldl (pptxImageStep pw toRGB resample encode maxw maxh sn "file") st shapes).textParts) := by
  induction shapes with
  | nil =>
    intro st
    refine ⟨by simp, by simp, ?_⟩
    intro msg hmsg
    cases hmsg
  | cons s ss ih =>
    intro st
    rw [List.foldl_cons, List.countP_cons, List.countP_cons]
    have h := ih (pptxImageStep pw toRGB resample encode maxw maxh sn "file" st s)
    refine ⟨?_, ?_, ?_⟩
    · rw [h.1]
      cases s with
      | failing msg => simp [pptxImageStep, isOkShape]
      | ok img => simp [pptxImageStep, isOkShape]; omega
    · rw [h.2.1]
      cases s with
      | failing msg => simp [pptxImageStep, isOkShape, isFailShape]; omega
      | ok img => simp [pptxImageStep, isOkShape, isFailShape]; omega
    · intro msg hmsg
      rcases List.mem_cons.mp hmsg with h1 | h1
      · subst h1
        refine pptx_text_mono pw toRGB resample encode maxw maxh sn ss _ _ ?_
        simp [pptxImageStep]
      · exact h.2.2 msg h1

theorem flatMap_byteHex_length (l : List Nat) :
    (l.flatMap byteHex).length = 2 * l.length := by
  induction l with
  | nil => simp
  | cons b t ih => simp [byteHex, ih]; omega

theorem hexDigitChar_mem (n : Nat) :
    hexDigitChar n ∈ ("0123456789abcdef").data :=
  List.get_mem _ _ _

theorem dropWhile_idem (p : Char → Bool) (l : List Char) :
    List.dropWhile p (List.dropWhile p l) = List.dropWhile p l := by
  induction l with
  | nil => simp
  | cons a t ih =>
    by_cases h : p a
    · simp [List.dropWhile_cons, h, ih]
    · simp [List.dropWhile_cons, h]

theorem rstrip_decomp (l : List Char) :
    l = rstripL l ++ (List.takeWhile isPySpace l.reverse).reverse := by
  conv_lhs => rw [← List.reverse_reverse l,
    ← List.takeWhile_append_dropWhile isPySpace l.reverse]
  rw [List.reverse_append]
  rfl

theorem lstrip_decomp (l : List Char) :
    l = List.takeWhile isPySpace l ++ lstripL l :=
  (List.takeWhile_append_dropWhile isPySpace l).symm

theorem endOKb_rstrip (l : List Char) : endOKb (rstripL l) = true := by
  unfold endOKb rstripL
  rw [List.getLast?_reverse]
  have h := List.head?_dropWhile_not isPySpace l.reverse
  cases hh : (List.dropWhile isPySpace l.reverse).head? with
  | none => rfl
  | some c =>
    rw [hh] at h
    simp [h]

theorem startOKb_lstrip (l : List Char) : startOKb (lstripL l) = true := by
  unfold startOKb lstripL
  have h := List.head?_dropWhile_not isPySpace l
  cases hh : (List.dropWhile isPySpace l).head? with
  | none => rfl
  | some c =>
    rw [hh] at h
    simp [h]

theorem rstrip_eq_self_of_endOK {l : List Char} (h : endOKb l = true) :
    rstripL l = l := by
  unfold endOKb at h
  unfold rstripL
  cases hh : l.getLast? with
  | none =>
    have : l = [] := List.getLast?_eq_none_iff.mp hh
    subst this; rfl
  | some c =>
    rw [hh] at h
    simp only [Bool.not_eq_true'] at h
    have hrev : l.reverse.head? = some c := by rw [List.head?_reverse, hh]
    obtain ⟨t, ht⟩ : ∃ t, l.reverse = c :: t := by
      cases hr : l.reverse with
      | nil => rw [hr] at hrev; cases hrev
      | cons x xs =>
        rw [hr] at hrev
        simp at hrev
        exact ⟨xs, by rw [hrev]⟩
    rw [ht, List.dropWhile_cons, h]
    simp [← ht]

theorem lstrip_eq_self_of_startOK {l : List Char} (h : startOKb l = true) :
    lstripL l = l := by
  unfold startOKb at h
  unfold lstripL
  cases l with
  | nil => rfl
  | cons a t =>
    simp only [List.head?_cons, Bool.not_eq_true'] at h
    rw [List.dropWhile_cons, h]
    simp

theorem rstrip_idem (l : List Char) : rstripL (rstripL l) = rstripL l :=
  rstrip_eq_self_of_endOK (endOKb_rstrip l)

theorem startOKb_rstrip {l : List Char} (h : startOKb l = true) :
    startOKb (rstripL l) = true := by
  cases hr : rstripL l with
  | nil => rfl
  | cons a t =>
    have hd := rstrip_decomp l
    rw [hr] at hd
    unfold startOKb
    simp only [List.head?_cons]
    unfold startOKb at h
    rw [hd] at h
    simp only [List.cons_append, List.head?_cons] at h
    exact h

theorem strip_idem (l : List Char) : stripL (stripL l) = stripL l := by
  unfold stripL
  rw [lstrip_eq_self_of_startOK (startOKb_rstrip (startOKb_lstrip l)),
    rstrip_idem]

theorem lineWS_cons_false {a : Char} {w : List Char}
    (h : lineWS (a :: w) = false) : lineWS w = false := by
  cases w with
  | nil => rfl
  | cons b r =>
    unfold lineWS at h
    simp only [Bool.or_eq_false_iff] at h
    exact h.2

theorem lineWS_suffix (u : List Char) : ∀ v : List Char,
    lineWS (u ++ v) = false → lineWS v = false := by
  induction u with
  | nil => intro v h; simpa using h
  | cons a u' ih =>
    intro v h
    exact ih v (lineWS_cons_false h)

theorem lineWS_prefix (u : List Char) : ∀ v : List Char,
    lineWS (u ++ v) = false → endOKb u = true → lineWS u = false := by
  induction u with
  | nil => intro v _ _; rfl
  | cons a u' ih =>
    intro v hw he
    cases u' with
    | nil =>
      unfold endOKb at he
      simp only [List.getLast?_singleton] at he
      have ha : isPySpace a = false := by simpa using he
      unfold lineWS
      simp [ha]
    | cons b u'' =>
      have hw2 : lineWS (a :: b :: (u'' ++ v)) = false := by simpa using hw
      unfold lineWS at hw2
      simp only [Bool.or_eq_false_iff] at hw2
      have he' : endOKb (b :: u'') = true := by
        unfold endOKb at he ⊢
        rwa [List.getLast?_cons_cons] at he
      have ih2 := ih v (by simpa using hw2.2) he'
      unfold lineWS
      simp only [Bool.or_eq_false_iff]
      exact ⟨hw2.1, ih2⟩

theorem lineWS_lstrip {l : List Char} (h : lineWS l = false) :
    lineWS (lstripL l) = false := by
  have hd := lstrip_decomp l
  rw [hd] at h
  exact lineWS_suffix _ _ h

theorem lineWS_rstrip {l : List Char} (h : lineWS l = false) :
    lineWS (rstripL l) = false := by
  have hd := rstrip_decomp l
  rw [hd] at h
  exact lineWS_prefix _ _ h (endOKb_rstrip l)

theorem lineWS_strip {l : List Char} (h : lineWS l = false) :
    lineWS (stripL l) = false :=
  lineWS_rstrip (lineWS_lstrip h)

theorem lineWS_piece (l : List Char) (hnl : '\n' ∉ l) (he : endOKb l = true) :
    lineWS l = false := by
  induction l with
  | nil => rfl
  | cons a rest ih =>
    cases rest with
    | nil =>
      unfold endOKb at he
      simp only [List.getLast?_singleton] at he
      have ha : isPySpace a = false := by simpa using he
      unfold lineWS
      simp [ha]
    | cons b r =>
      have hb : ¬ (b = '\n') := by
        intro hc; exact hnl (by simp [hc])
      have he' : endOKb (b :: r) = true := by
        unfold endOKb at he ⊢
        rwa [List.getLast?_cons_cons] at he
      have hnl' : '\n' ∉ (b :: r) := fun hc => hnl (List.mem_cons_of_mem a hc)
      unfold lineWS
      simp only [Bool.or_eq_false_iff]
      constructor
      · simp [hb]
      · exact ih hnl' he'

theorem lineWS_nl_cons {w : List Char} (h : lineWS w = false) :
    lineWS ('\n' :: w) = false := by
  cases w with
  | nil => rfl
  | cons b r =>
    unfold lineWS
    simp only [Bool.or_eq_false_iff]
    refine ⟨by simp, h⟩

theorem lineWS_append_nl (piece : List Char) : ∀ rest : List Char,
    '\n' ∉ piece → endOKb piece = true → lineWS ('\n' :: rest) = false →
    lineWS (piece ++ '\n' :: rest) = false := by
  induction piece with
  | nil => intro rest _ _ hr; simpa using hr
  | cons a p' ih =>
    intro rest hnl he hr
    cases p' with
    | nil =>
      unfold endOKb at he
      simp only [List.getLast?_singleton] at he
      show lineWS (a :: '\n' :: rest) = false
      unfold lineWS
      simp only [Bool.or_eq_false_iff]
      have ha : isPySpace a = false := by simpa using he
      constructor
      · simp [ha]
      · exact hr
    | cons b p'' =>
      have hb : ¬ (b = '\n') := by
        intro hc; exact hnl (by simp [hc])
      have he' : endOKb (b :: p'') = true := by
        unfold endOKb at he ⊢
        rwa [List.getLast?_cons_cons] at he
      have hnl' : '\n' ∉ (b :: p'') := fun hc => hnl (List.mem_cons_of_mem a hc)
      have ih2 := ih rest hnl' he' hr
      show lineWS (a :: b :: (p'' ++ '\n' :: rest)) = false
      unfold lineWS
      simp only [Bool.or_eq_false_iff]
      constructor
      · simp [hb]
      · simpa using ih2

theorem lineWS_joinNl (L : List (List Char))
    (h : ∀ l ∈ L, '\n' ∉ l ∧ endOKb l = true) : lineWS (joinNlL L) = false := by
  induction L with
  | nil => rfl
  | cons l L' ih =>
    cases L' with
    | nil =>
      have hl := h l (by simp)
      exact lineWS_piece l hl.1 hl.2
    | cons l2 L'' =>
      have hl := h l (by simp)
      have hrest : lineWS (joinNlL (l2 :: L'')) = false :=
        ih (fun x hx => h x (List.mem_cons_of_mem l hx))
      show lineWS (l ++ '\n' :: joinNlL (l2 :: L'')) = false
      exact lineWS_append_nl l _ hl.1 hl.2 (lineWS_nl_cons hrest)

theorem nl_not_mem_splitNl (l : List Char) :
    ∀ piece ∈ splitNlL l, '\n' ∉ piece := by
  induction l with
  | nil =>
    intro piece hp
    simp only [splitNlL, List.mem_singleton] at hp
    subst hp
    exact List.not_mem_nil _
  | cons c rest ih =>
    intro piece hp
    by_cases hc : c = '\n'
    · rw [splitNlL, if_pos hc] at hp
      rcases List.mem_cons.mp hp with h1 | h1
      · subst h1; exact List.not_mem_nil _
      · exact ih piece h1
    · rw [splitNlL, if_neg hc] at hp
      cases hr : splitNlL rest with
      | nil =>
        rw [hr] at hp
        simp only [List.mem_singleton] at hp
        subst hp
        intro hmem
        rcases List.mem_singleton.mp hmem with h1
        exact hc h1.symm
      | cons hd t =>
        rw [hr] at hp
        rcases List.mem_cons.mp hp with h1 | h1
        · subst h1
          intro hmem
          rcases List.mem_cons.mp hmem with h2 | h2
          · exact hc h2.symm
          · exact ih hd (by rw [hr]; exact List.mem_cons_self _ _) h2
        · exact ih piece (by rw [hr]; exact List.mem_cons_of_mem _ h1)

theorem not_mem_rstrip {c : Char} {l : List Char} (h : c ∉ l) : c ∉ rstripL l := by
  intro hc
  apply h
  unfold rstripL at hc
  rw [List.mem_reverse] at hc
  have := (List.dropWhile_suffix isPySpace).subset hc
  rwa [List.mem_reverse] at this

theorem pyJoin_ends (l : List String) (x : String) :
    ∃ t : String, pyJoin "\n" (l ++ [x]) = t ++ x := by
  induction l with
  | nil =>
    refine ⟨"", ?_⟩
    obtain ⟨xd⟩ := x
    rfl
  | cons a l' ih =>
    cases l' with
    | nil => exact ⟨a ++ "\n", rfl⟩
    | cons b l'' =>
      obtain ⟨t, ht⟩ := ih
      refine ⟨a ++ "\n" ++ t, ?_⟩
      show a ++ "\n" ++ pyJoin "\n" ((b :: l'') ++ [x]) = a ++ "\n" ++ t ++ x
      rw [ht]
      simp [String.append_assoc]

theorem excel_flat_ends (sheets : List (String × List (List (Option String))))
    (h : sheets ≠ []) :
    ∃ l0, sheets.flatMap (fun p => sheetParts p.1 p.2) = l0 ++ ["\n---\n"] := by
  induction sheets with
  | nil => exact absurd rfl h
  | cons p rest ih =>
    cases rest with
    | nil =>
      by_cases hk : keptRows p.2 = []
      · exact ⟨["# Sheet: " ++ p.1 ++ "\n", "*Empty sheet*\n"],
          by simp [sheetParts, List.isEmpty_iff, hk]⟩
      · exact ⟨["# Sheet: " ++ p.1 ++ "\n", createMarkdownTable (keptRows p.2)],
          by simp [sheetParts, List.isEmpty_iff, hk]⟩
    | cons p2 rest' =>
      obtain ⟨l0, hl0⟩ := ih (List.cons_ne_nil _ _)
      refine ⟨sheetParts p.1 p.2 ++ l0, ?_⟩
      rw [List.flatMap_cons, hl0, List.append_assoc]

/-! # Claim theorems -/

/-- C1 counterexample: a run with all four flags set renders as
`~~<u>***text***</u>~~` (bold applied first, innermost; strike applied
last, outermost; `*` used for italic), not `**_<u>~~text~~</u>_**` as the
claim states. -/
theorem c1_counterexample :
    formatRun ⟨"text", true, true, true, true⟩ = "~~<u>***text***</u>~~" ∧
    formatRun ⟨"text", true, true, true, true⟩ ≠ "**_<u>~~text~~</u>_**" := by
  exact ⟨rfl, by decide⟩

/-- C1 amended: for every inline run with non-empty text whose bold,
italic, underline and strike flags are all set, `_process_paragraph`
renders the run as exactly `~~<u>***text***</u>~~` — wrapping applied
innermost-to-outermost in the source order bold, italic, underline,
strike, with strike outermost and `*` (not `_`) as the italic marker. -/
theorem c1_amended (r : InlineRun) (hne : r.text ≠ "") (hb : r.bold = true)
    (hi : r.italic = true) (hu : r.underline = true) (hs : r.strike = true) :
    formatRun r = "~~<u>***" ++ r.text ++ "***</u>~~" := by
  obtain ⟨t, b, i, u, s⟩ := r
  obtain ⟨tl⟩ := t
  simp only at hb hi hu hs
  subst hb hi hu hs
  simp only [formatRun, if_true, String.append_assoc]
  rfl

/-- C1 amended, witness at a concrete run. -/
theorem c1_witness :
    formatRun ⟨"hello", true, true, true, true⟩ = "~~<u>***hello***</u>~~" :=
  c1_amended ⟨"hello", true, true, true, true⟩ (by decide) rfl rfl rfl rfl

/-- C7 counterexample: the style `Heading 7` parses to level 7 — outside
`[1,6]` and not clamped to it, and not treated as 0 either — and the
paragraph is rendered as a heading with seven `#` characters. -/
theorem c7_counterexample :
    headingLevel "Heading 7" = 7 ∧ 6 < headingLevel "Heading 7" ∧
    applyHeading (headingLevel "Heading 7") "x" = "####### x" := by
  refine ⟨by decide, by decide, by decide⟩

/-- C7 amended: `_process_paragraph` performs no clamping.  A style not
starting with `Heading`, or whose remainder fails to parse as an integer,
yields level 0; a parsed level is used as-is.  A non-positive level renders
as a plain paragraph; any positive level `k` — including `k > 6` — renders
with exactly `k` leading `#` characters. -/
theorem c7_amended (style text : String) :
    (¬ pyStartswith style "Heading" = true → headingLevel style = 0)
  ∧ (pyStartswith style "Heading" = true →
      pyInt (dropHeadingOcc style.data) = none → headingLevel style = 0)
  ∧ (∀ n : Int, pyStartswith style "Heading" = true →
      pyInt (dropHeadingOcc style.data) = some n → headingLevel style = n)
  ∧ (headingLevel style ≤ 0 → applyHeading (headingLevel style) text = text)
  ∧ (0 < headingLevel style →
      applyHeading (headingLevel style) text
        = String.mk (List.replicate (headingLevel style).toNat '#') ++ " " ++ text) := by
  refine ⟨?_, ?_, ?_, ?_, ?_⟩
  · intro h; simp [headingLevel, h]
  · intro h1 h2; simp [headingLevel, h1, h2]
  · intro n h1 h2; simp [headingLevel, h1, h2]
  · intro h
    simp only [applyHeading]
    rw [if_neg (by omega)]
  · intro h
    simp only [applyHeading]
    rw [if_pos (by omega)]

/-- C7 amended, witness: `Heading 7` renders with seven `#` characters. -/
theorem c7_witness :
    applyHeading (headingLevel "Heading 7") "x"
      = String.mk (List.replicate (headingLevel "Heading 7").toNat '#') ++ " " ++ "x" :=
  (c7_amended "Heading 7" "x").2.2.2.2 (by decide)

/-- C2 counterexample: a 1×1 single-colour image — the claim's own
degenerate case — classifies as *photographic* (`true`), not graphic: the
sample budget is 1, so the distinct-colour ratio is `1/1 = 1 > 0.3`.  (No
division by zero occurs; the `sample_size > 0` guard is simply not the
branch taken.) -/
theorem c2_counterexample :
    isPhotoLike (fun _ c => c) ⟨"RGB", 1, 1, [0]⟩ = true := by
  have h := isPhotoLike_replicate (fun _ c => c) "RGB" 1 1 0 (le_refl 1) (le_refl 1)
  simpa using h

/-- C2 amended: a well-formed (`w, h ≥ 1`) single-colour image classifies
as graphic *exactly when* its sample budget `min(100,w) * min(100,h)` is
at least 4 (budgets 1, 2 and 3 — e.g. 1×1, 1×2, 1×3, 3×1 images — make
the distinct-colour ratio `1/budget` exceed `0.3` and classify as
photographic); for a 1×1 image the budget is the single pixel, no
division by zero occurs, and the classification is *photographic*, not
graphic. -/
theorem c2_amended (toRGB : String → Nat → Nat) (mode : String) (w h c : Nat)
    (hw : 1 ≤ w) (hh : 1 ≤ h) :
    (isPhotoLike toRGB ⟨mode, w, h, List.replicate (w * h) c⟩ = false
      ↔ 4 ≤ min 100 w * min 100 h)
    ∧ ∀ c0 : Nat, isPhotoLike toRGB ⟨"RGB", 1, 1, [c0]⟩ = true := by
  constructor
  · rw [isPhotoLike_replicate toRGB mode w h c hw hh]
    simp only [decide_eq_false_iff_not]
    omega
  · intro c0
    have hx := isPhotoLike_replicate toRGB "RGB" 1 1 c0 (le_refl 1) (le_refl 1)
    simpa using hx

/-- C2 amended, witness: a 50×50 single-colour palette image is graphic
(budget 2500 ≥ 4); a 1×2 single-colour image is photographic (budget 2);
a 1×1 single-colour image is photographic. -/
theorem c2_witness :
    isPhotoLike (fun _ c => c) ⟨"P", 50, 50, List.replicate (50 * 50) 7⟩ = false
    ∧ isPhotoLike (fun _ c => c) ⟨"L", 1, 2, List.replicate (1 * 2) 4⟩ ≠ false
    ∧ isPhotoLike (fun _ c => c) ⟨"RGB", 1, 1, [9]⟩ = true :=
  ⟨((c2_amended (fun _ c => c) "P" 50 50 7 (by norm_num) (by norm_num)).1).mpr (by norm_num),
   fun hf => by
     have h4 := ((c2_amended (fun _ c => c) "L" 1 2 4 (by norm_num) (by norm_num)).1).mp hf
     norm_num at h4,
   (c2_amended (fun _ c => c) "P" 50 50 7 (by norm_num) (by norm_num)).2 9⟩

/-- C3: `_resize_if_needed` leaves an image within bounds untouched;
an image exceeding either bound is resampled to
`(int(w * ratio), int(h * ratio))` with `ratio = min(maxw/w, maxh/h)`:
both output dimensions are within bounds, and each equals the exactly
scaled dimension rounded down with less than one pixel of rounding error
(the same uniform ratio scales both axes, preserving aspect up to that
rounding).  Defaults `max_width = 1920`, `max_height = 1080` are
instantiated in the witness. -/
theorem c3_resize (resample : PImage → Nat → Nat → PImage) (maxw maxh : Nat)
    (img : PImage) (hw : 0 < img.width) (hh : 0 < img.height) :
    (img.width ≤ maxw ∧ img.height ≤ maxh →
        resizeIfNeeded resample maxw maxh img = img)
  ∧ (¬(img.width ≤ maxw ∧ img.height ≤ maxh) →
      resizeIfNeeded resample maxw maxh img
          = resample img (resizeDims maxw maxh img.width img.height).1
              (resizeDims maxw maxh img.width img.height).2
      ∧ (resizeDims maxw maxh img.width img.height).1 ≤ maxw
      ∧ (resizeDims maxw maxh img.width img.height).2 ≤ maxh
      ∧ ((resizeDims maxw maxh img.width img.height).1 : ℚ)
          ≤ (img.width : ℚ) * ratioQ maxw maxh img.width img.height
      ∧ ((img.width : ℚ) * ratioQ maxw maxh img.width img.height)
          < (resizeDims maxw maxh img.width img.height).1 + 1
      ∧ ((resizeDims maxw maxh img.width img.height).2 : ℚ)
          ≤ (img.height : ℚ) * ratioQ maxw maxh img.width img.height
      ∧ ((img.height : ℚ) * ratioQ maxw maxh img.width img.height)
          < (resizeDims maxw maxh img.width img.height).2 + 1) := by
  obtain ⟨m, w, h, pix⟩ := img
  simp only at hw hh ⊢
  have hw0 : ((w : ℚ)) ≠ 0 := by positivity
  have hh0 : ((h : ℚ)) ≠ 0 := by positivity
  have hrat : 0 ≤ ratioQ maxw maxh w h := by
    refine le_min ?_ ?_ <;> positivity
  have hwr : 0 ≤ (w : ℚ) * ratioQ maxw maxh w h := by positivity
  have hhr : 0 ≤ (h : ℚ) * ratioQ maxw maxh w h := by positivity
  have hbw : (w : ℚ) * ratioQ maxw maxh w h ≤ (maxw : ℚ) := by
    calc (w : ℚ) * ratioQ maxw maxh w h
        ≤ (w : ℚ) * ((maxw : ℚ) / (w : ℚ)) := by
          exact mul_le_mul_of_nonneg_left (min_le_left _ _) (by positivity)
      _ = (maxw : ℚ) := by
          rw [mul_comm]
          exact div_mul_cancel₀ _ hw0
  have hbh : (h : ℚ) * ratioQ maxw maxh w h ≤ (maxh : ℚ) := by
    calc (h : ℚ) * ratioQ maxw maxh w h
        ≤ (h : ℚ) * ((maxh : ℚ) / (h : ℚ)) := by
          exact mul_le_mul_of_nonneg_left (min_le_right _ _) (by positivity)
      _ = (maxh : ℚ) := by
          rw [mul_comm]
          exact div_mul_cancel₀ _ hh0
  constructor
  · intro hin
    unfold resizeIfNeeded
    rw [if_pos hin]
  · intro hout
    refine ⟨?_, ?_, ?_, ?_, ?_, ?_, ?_⟩
    · unfold resizeIfNeeded
      rw [if_neg hout]
    · show ⌊(w : ℚ) * ratioQ maxw maxh w h⌋₊ ≤ maxw
      calc ⌊(w : ℚ) * ratioQ maxw maxh w h⌋₊
          ≤ ⌊(maxw : ℚ)⌋₊ := Nat.floor_le_floor hbw
        _ = maxw := Nat.floor_natCast maxw
    · show ⌊(h : ℚ) * ratioQ maxw maxh w h⌋₊ ≤ maxh
      calc ⌊(h : ℚ) * ratioQ maxw maxh w h⌋₊
          ≤ ⌊(maxh : ℚ)⌋₊ := Nat.floor_le_floor hbh
        _ = maxh := Nat.floor_natCast maxh
    · exact Nat.floor_le hwr
    · exact_mod_cast Nat.lt_floor_add_one ((w : ℚ) * ratioQ maxw maxh w h)
    · exact Nat.floor_le hhr
    · exact_mod_cast Nat.lt_floor_add_one ((h : ℚ) * ratioQ maxw maxh w h)

/-- C3, witness: a 3840×2160 image under the default 1920×1080 bounds
resizes within bounds. -/
theorem c3_witness :
    (resizeDims 1920 1080 3840 2160).1 ≤ 1920
    ∧ (resizeDims 1920 1080 3840 2160).2 ≤ 1080 := by
  have H := (c3_resize (fun i _ _ => i) 1920 1080 ⟨"RGB", 3840, 2160, []⟩
    (by norm_num) (by norm_num)).2 (by norm_num)
  exact ⟨H.2.1, H.2.2.1⟩

/-- C4 counterexample: in the Word path, a document paragraph with three
embedded images of which the middle one is unreadable yields exactly the
two successfully written images and two markdown references — and *no*
textual failure annotation anywhere (`except Exception: pass` drops the
failed image silently), contradicting the claim that every suppressed
image leaves an annotation. -/
theorem c4_counterexample :
    (docxImages "file" [DrawingRef.ok "image/png" [0], DrawingRef.failing,
        DrawingRef.ok "image/png" [1]] 0).images
      = ["images/image_001.png", "images/image_003.png"]
  ∧ (docxImages "file" [DrawingRef.ok "image/png" [0], DrawingRef.failing,
        DrawingRef.ok "image/png" [1]] 0).textParts
      = ["\n![image](images/image_001.png)\n", "\n![image](images/image_003.png)\n"]
  ∧ containsSub "fail".data
      (String.join (docxImages "file" [DrawingRef.ok "image/png" [0], DrawingRef.failing,
        DrawingRef.ok "image/png" [1]] 0).textParts).data = false := by
  refine ⟨by decide, by decide, by decide⟩

/-- C4 amended: extraction failure of one embedded image never aborts the
conversion and the images list contains exactly the successfully written
images, but the failure annotation exists only on the PowerPoint path: a
failing docx image leaves no textual trace (text parts correspond 1-1 to
written images), while a failing pptx shape appends exactly
`\n*[Image extraction failed: {e}]*` and conversion continues. -/
theorem c4_amended (refs : List DrawingRef) (shapes : List PicShape)
    (preferWebp : Bool) (toRGB : String → Nat → Nat)
    (resample : PImage → Nat → Nat → PImage) (encode : PImage → String → List Nat)
    (maxw maxh slideNum c0 c1 : Nat) :
    ((docxImages "file" refs c0).images.length = refs.countP isOkRef)
  ∧ ((docxImages "file" refs c0).textParts.length = refs.countP isOkRef)
  ∧ ((pptxImages preferWebp toRGB resample encode maxw maxh slideNum "file" shapes c1).images.length
      = shapes.countP isOkShape)
  ∧ ((pptxImages preferWebp toRGB resample encode maxw maxh slideNum "file" shapes c1).textParts.length
      = shapes.countP isOkShape + shapes.countP isFailShape)
  ∧ (∀ msg : String, PicShape.failing msg ∈ shapes →
      ("\n*[Image extraction failed: " ++ msg ++ "]*")
        ∈ (pptxImages preferWebp toRGB resample encode maxw maxh slideNum "file" shapes c1).textParts) := by
  have hd := docx_loop_file refs ⟨[], [], c0⟩
  have hp := pptx_loop_file preferWebp toRGB resample encode maxw maxh slideNum shapes ⟨[], [], c1⟩
  exact ⟨by simpa [docxImages] using hd.1, by simpa [docxImages] using hd.2,
    by simpa [pptxImages] using hp.1, by simpa [pptxImages] using hp.2.1,
    by simpa [pptxImages] using hp.2.2⟩

/-- C4 amended, witness: a failing pptx shape leaves its annotation. -/
theorem c4_witness :
    ("\n*[Image extraction failed: " ++ "boom" ++ "]*")
      ∈ (pptxImages true (fun _ c => c) (fun i _ _ => i) (fun _ _ => []) 1920 1080 1 "file"
          [PicShape.failing "boom"] 0).textParts :=
  (c4_amended [] [PicShape.failing "boom"] true (fun _ c => c) (fun i _ _ => i) (fun _ _ => [])
      1920 1080 1 0 0).2.2.2.2 "boom" (by decide)

/-- C5: for every non-empty grid, every rendered markdown-table row —
data rows and the `---` separator row alike — is the rendering of a cell
list of length exactly `maxCols` (the `max_row_length` of the sheet), and
the worked 3×2 example renders to precisely the four specified lines. -/
theorem c5_table_shape (data : List (List (Option String))) (hne : data ≠ []) :
    (∀ s ∈ mdRowsOf data, ∃ cells : List String,
        cells.length = maxCols data ∧ s = renderCells cells)
  ∧ createMarkdownTable
      [[some "Name", some "Age"], [some "Al", some "30"], [some "Bo", some ""]]
      = "| Name | Age |\n| --- | --- |\n| Al | 30 |\n| Bo |  |\n" := by
  constructor
  · intro s hs
    obtain ⟨d0, rest, rfl⟩ : ∃ d0 rest, data = d0 :: rest := by
      cases data with
      | nil => exact absurd rfl hne
      | cons a b => exact ⟨a, b, rfl⟩
    simp only [mdRowsOf, List.map_cons, List.mem_cons, List.mem_map] at hs
    rcases hs with h1 | h1 | ⟨r, ⟨r0, hr0, rfl⟩, h1⟩
    · refine ⟨rowCells (padRow (maxCols (d0 :: rest)) d0), ?_, h1⟩
      rw [rowCells_length, padRow_length (length_le_maxCols (List.mem_cons_self d0 rest))]
    · refine ⟨List.replicate (rowCells (padRow (maxCols (d0 :: rest)) d0)).length "---", ?_, h1⟩
      rw [List.length_replicate, rowCells_length,
        padRow_length (length_le_maxCols (List.mem_cons_self d0 rest))]
    · refine ⟨rowCells (padRow (maxCols (d0 :: rest)) r0), ?_, h1.symm⟩
      rw [rowCells_length, padRow_length (length_le_maxCols (List.mem_cons_of_mem d0 hr0))]
  · rfl

/-- C5, witness: the theorem at the worked example grid itself. -/
theorem c5_witness :
    createMarkdownTable [[some "Name", some "Age"], [some "Al", some "30"], [some "Bo", some ""]]
      = "| Name | Age |\n| --- | --- |\n| Al | 30 |\n| Bo |  |\n" :=
  (c5_table_shape [[some "Name", some "Age"], [some "Al", some "30"], [some "Bo", some ""]]
    (by decide)).2

/-- C6: every kept row has a non-blank cell; every all-blank row (each
cell `None` or whitespace-only) is dropped before table construction; and
each kept row is padded with empty (`None`) cells to exactly the sheet's
maximum column count. -/
theorem c6_row_normalization (rows : List (List (Option String))) :
    (∀ r ∈ keptRows rows, ∃ c ∈ r, cellNonBlank c = true)
  ∧ (∀ r ∈ rows, (∀ c ∈ r, cellNonBlank c = false) → r ∉ keptRows rows)
  ∧ (∀ r ∈ keptRows rows,
      (padRow (maxCols (keptRows rows)) r).length = maxCols (keptRows rows)
      ∧ padRow (maxCols (keptRows rows)) r
          = r ++ List.replicate (maxCols (keptRows rows) - r.length) none) := by
  refine ⟨?_, ?_, ?_⟩
  · intro r hr
    exact List.any_eq_true.mp (List.mem_filter.mp hr).2
  · intro r _ hall hmem
    obtain ⟨c, hc, hct⟩ := List.any_eq_true.mp (List.mem_filter.mp hmem).2
    rw [hall c hc] at hct
    cases hct
  · intro r hr
    exact ⟨padRow_length (length_le_maxCols hr), rfl⟩

/-- C6, witness: an all-blank row is dropped from a concrete sheet. -/
theorem c6_witness :
    [none, some "  "] ∉ keptRows [[some "a"], [none, some "  "]] :=
  (c6_row_normalization [[some "a"], [none, some "  "]]).2.1 [none, some "  "]
    (by decide) (by decide)

/-- C10 counterexample: `force_format = ""` names no supported codec and
is neither `webp` nor `png`, yet it does not reach the JPEG branch: the
empty string is falsy in Python, so the automatic chooser runs and (with
`prefer_webp` set, the default) returns `.webp`. -/
theorem c10_counterexample :
    optimizeExt true (fun _ c => c) (fun i _ _ => i) 1920 1080
        ⟨"RGB", 1, 1, [0]⟩ (some "") = ".webp"
    ∧ (".webp" : String) ≠ ".jpg" := by
  refine ⟨?_, by decide⟩
  unfold optimizeExt chosenFormat
  simp [chooseFormat_preferWebp, saveExt]

/-- C10 amended: `optimize_image` always returns one of `.webp`, `.png`,
`.jpg`; every *truthy* (non-empty) `force_format` that lowercases to
neither `webp` nor `png` falls through to the JPEG branch and yields
`.jpg`, while `None` and the empty string fall back to the automatic
format chooser. -/
theorem c10_amended (preferWebp : Bool) (toRGB : String → Nat → Nat)
    (resample : PImage → Nat → Nat → PImage) (maxw maxh : Nat) (img : PImage)
    (ff : Option String) :
    (optimizeExt preferWebp toRGB resample maxw maxh img ff = ".webp"
      ∨ optimizeExt preferWebp toRGB resample maxw maxh img ff = ".png"
      ∨ optimizeExt preferWebp toRGB resample maxw maxh img ff = ".jpg")
  ∧ (∀ f : String, ff = some f → f ≠ "" → pyLower f ≠ "webp" → pyLower f ≠ "png" →
      optimizeExt preferWebp toRGB resample maxw maxh img ff = ".jpg")
  ∧ (optimizeExt preferWebp toRGB resample maxw maxh img none
      = saveExt (chooseFormat preferWebp toRGB (resizeIfNeeded resample maxw maxh img)
          (img.mode = "RGBA" || img.mode = "LA" || img.mode = "P"))) := by
  refine ⟨?_, ?_, rfl⟩
  · unfold optimizeExt saveExt
    by_cases h1 : chosenFormat preferWebp toRGB resample maxw maxh img ff = "webp"
    · left; rw [if_pos h1]
    · by_cases h2 : chosenFormat preferWebp toRGB resample maxw maxh img ff = "png"
      · right; left; rw [if_neg h1, if_pos h2]
      · right; right; rw [if_neg h1, if_neg h2]
  · intro f hff h0 hw hp
    subst hff
    unfold optimizeExt chosenFormat saveExt
    simp only [if_neg h0]
    rw [if_neg hw, if_neg hp]

/-- C10 amended, witness: forcing `GIF` (truthy, not webp/png) yields
`.jpg`. -/
theorem c10_witness :
    optimizeExt true (fun _ c => c) (fun i _ _ => i) 1920 1080
      ⟨"RGB", 1, 1, [0]⟩ (some "GIF") = ".jpg" :=
  (c10_amended true (fun _ c => c) (fun i _ _ => i) 1920 1080
      ⟨"RGB", 1, 1, [0]⟩ (some "GIF")).2.1 "GIF" rfl (by decide) (by decide) (by decide)

/-- C8: the MD5 hex digest of any byte stream has exactly 32 lowercase hex
characters (a 128-bit hash); the output identifier is the stem, an
underscore, and the first 8 characters of that digest; byte-identical
sources yield identical identifiers (and, the whole modelled pipeline
being a pure function of the source bytes, identical markdown). -/
theorem c8_fingerprint (stem : String) (b1 b2 : List Nat) (heq : b1 = b2) :
    (md5hex b1).length = 32
  ∧ (∀ ch ∈ (md5hex b1).data, ch ∈ ("0123456789abcdef").data)
  ∧ outputName stem b1 = stem ++ "_" ++ String.mk ((md5hex b1).data.take 8)
  ∧ ((md5hex b1).data.take 8).length = 8
  ∧ outputName stem b1 = outputName stem b2 := by
  have hdata : (md5hex b1).data
      = (md5DigestBytes (md5Chunks (0x67452301, 0xefcdab89, 0x98badcfe, 0x10325476)
          (md5Pad b1))).flatMap byteHex := rfl
  have hlen : (md5hex b1).length = 32 := by
    show (md5hex b1).data.length = 32
    rw [hdata, flatMap_byteHex_length]
    simp [md5DigestBytes, bytesOfWordLE]
  refine ⟨hlen, ?_, rfl, ?_, by rw [heq]⟩
  · intro ch hch
    rw [hdata] at hch
    obtain ⟨b, _, hb⟩ := List.mem_flatMap.mp hch
    simp only [byteHex, List.mem_cons, List.not_mem_nil, or_false] at hb
    rcases hb with h1 | h1 <;> rw [h1] <;> exact hexDigitChar_mem _
  · rw [List.length_take]
    have : (md5hex b1).data.length = 32 := hlen
    omega

/-- C8, witness at a concrete byte stream. -/
theorem c8_witness :
    outputName "report" [0, 1, 2] = outputName "report" [0, 1, 2]
    ∧ ((md5hex [0, 1, 2]).data.take 8).length = 8 :=
  ⟨(c8_fingerprint "report" [0, 1, 2] [0, 1, 2] rfl).2.2.2.2,
   (c8_fingerprint "report" [0, 1, 2] [0, 1, 2] rfl).2.2.2.1⟩

/-- C9 counterexample: an Excel workbook with one empty sheet converts to
markdown that contains a run of three consecutive newlines and ends in a
newline (trailing whitespace on the document), because the Excel path
applies no normalization pass at all. -/
theorem c9_counterexample :
    excelMarkdown [("Sheet1", [])] = "# Sheet: Sheet1\n\n*Empty sheet*\n\n\n---\n"
  ∧ containsSub "\n\n\n".data (excelMarkdown [("Sheet1", [])]).data = true
  ∧ rstripL (excelMarkdown [("Sheet1", [])]).data ≠ (excelMarkdown [("Sheet1", [])]).data := by
  refine ⟨by decide, by decide, by decide⟩

/-- C9 amended: only the Word path normalizes its markdown, and even there
not fully.  `_clean_markdown` output has no leading or trailing whitespace
on the document and no line with trailing whitespace, but runs of three or
more newlines can survive (whitespace-only lines are blanked only after
the newline-collapse pass, witness `"a\n \n \nb"`).  The Excel (and
PowerPoint) paths apply no normalization: any non-empty workbook's
markdown ends with `"\n---\n"`, i.e. with document-level trailing
whitespace. -/
theorem c9_amended :
    (∀ s : String, stripL (cleanMarkdown s).data = (cleanMarkdown s).data)
  ∧ (∀ s : String, lineWS (cleanMarkdown s).data = false)
  ∧ (∀ sheets : List (String × List (List (Option String))), sheets ≠ [] →
      ∃ t : String, excelMarkdown sheets = t ++ "\n---\n")
  ∧ cleanMarkdown "a\n \n \nb" = "a\n\n\nb" := by
  refine ⟨?_, ?_, ?_, by decide⟩
  · intro s
    exact strip_idem _
  · intro s
    have hdata : (cleanMarkdown s).data
        = stripL (joinNlL ((splitNlL (scanSub mListBlank (scanSub mHeadingSpace
            (scanSub mNl3 s.data)))).map rstripL)) := rfl
    rw [hdata]
    apply lineWS_strip
    apply lineWS_joinNl
    intro l hl
    obtain ⟨piece, hpiece, rfl⟩ := List.mem_map.mp hl
    exact ⟨not_mem_rstrip (nl_not_mem_splitNl _ piece hpiece), endOKb_rstrip piece⟩
  · intro sheets hne
    obtain ⟨l0, hl0⟩ := excel_flat_ends sheets hne
    unfold excelMarkdown
    rw [hl0]
    exact pyJoin_ends l0 "\n---\n"

/-- C9 amended, witness: a concrete non-empty workbook's markdown ends
with the unnormalized `"\n---\n"` tail. -/
theorem c9_witness :
    ∃ t : String, excelMarkdown [("S", [[some "x"]])] = t ++ "\n---\n" :=
  c9_amended.2.2.1 [("S", [[some "x"]])] (by decide)

end OfficeReader
